import Mathlib

/-!
# Shallow embedding of `src/python/organizer.py`

The organizer watches a staging directory, parses filenames of the form
`{platform}_{timestamp}_{counter}.{ext}`, and moves each file into
`DEST_BASE/{platform}/images` or `.../labels`.  This file embeds the
pipeline — filename splitting, platform allow-list, extension dispatch,
collision disambiguation and the move — as executable Lean definitions,
and proves the specification claims about them.

String primitives (`str.split`, `str.lower`, `os.path.splitext`,
`os.path.join`) are modelled character-for-character after their Python
semantics.  The filesystem is a finite map from paths to contents; the
effectful steps (`os.makedirs`, `shutil.move`) are parameterised by
failure oracles so that the `try/except` behaviour of `process_file`
can be stated.
-/

/-- Python `str.lower` (ASCII): lower-case every character. -/
def lowerStr (s : String) : String := ⟨s.data.map Char.toLower⟩

/-- The `PLATFORMS` allow-list from organizer.py. -/
def PLATFORMS : List String :=
  ["twitter", "instagram", "facebook", "whatsapp",
   "linkedin", "reddit", "discord", "threads",
   "youtube", "snapchat"]

/-- `IMAGE_EXT = '.jpg'` from organizer.py. -/
def IMAGE_EXT : String := ".jpg"

/-- `LABEL_EXT = '.txt'` from organizer.py. -/
def LABEL_EXT : String := ".txt"

/-- Core of Python `str.split(sep)` for a one-character separator:
returns the first segment and the list of remaining segments (so the
full result is always non-empty, as in Python). -/
def splitCharNE (d : Char) : List Char → List Char × List (List Char)
  | [] => ([], [])
  | c :: cs =>
    let r := splitCharNE d cs
    if c = d then ([], r.1 :: r.2) else (c :: r.1, r.2)

/-- Python `filename.split(sep)` for a one-character separator. -/
def pysplit (d : Char) (s : String) : List String :=
  let r := splitCharNE d s.data
  (⟨r.1⟩ : String) :: r.2.map (fun cs => (⟨cs⟩ : String))

/-- Core of `os.path.splitext` on a plain filename: find the last dot
and return the parts before and from it; `none` when there is no dot. -/
def splitextCore : List Char → Option (List Char × List Char)
  | [] => none
  | c :: cs =>
    match splitextCore cs with
    | some r => some (c :: r.1, r.2)
    | none => if c = '.' then some ([], c :: cs) else none

/-- Python `os.path.splitext(filename)` for a bare filename (no
directory separators): split at the last dot unless every character
before it is itself a dot (so `.jpg` has no extension). -/
def splitext (s : String) : String × String :=
  match splitextCore s.data with
  | some r =>
    if r.1.all (fun c => c = '.') then (s, "")
    else ((⟨r.1⟩ : String), (⟨r.2⟩ : String))
  | none => (s, "")

/-- `os.path.join` with a single component (forward-slash separator). -/
def pjoin (a b : String) : String := a ++ "/" ++ b

/-- The kind of payload a file carries, decided by its extension. -/
inductive Kind
  | Image
  | Label
deriving DecidableEq

/-- Classification failures of the filename grammar. -/
inductive ClassificationError
  | MalformedName
  | UnknownLabel
  | UnsupportedExtension
deriving DecidableEq

/-- The structured result of parsing a filename. -/
structure FileDescriptor where
  label : String
  kind : Kind
deriving DecidableEq

/-- The pure classification stage of `process_file`
(organizer.py lines 92–116): split on `_`, require at least 3 parts,
lower-case the first part and check it against `PLATFORMS`, then map
the lower-cased extension to a kind. -/
def classify (filename : String) : Except ClassificationError FileDescriptor :=
  let parts := pysplit '_' filename
  if parts.length < 3 then .error .MalformedName
  else
    let platform := lowerStr (parts.headD "")
    if PLATFORMS.contains platform then
      let extension := lowerStr (splitext filename).2
      if extension = IMAGE_EXT then .ok ⟨platform, .Image⟩
      else if extension = LABEL_EXT then .ok ⟨platform, .Label⟩
      else .error .UnsupportedExtension
    else .error .UnknownLabel

/-- Target directory for a descriptor:
`os.path.join(DEST_BASE, platform, 'images')` or `... 'labels'`
(organizer.py lines 110–113). -/
def dest_folder (basePath : String) (d : FileDescriptor) : String :=
  match d.kind with
  | .Image => pjoin (pjoin basePath d.label) "images"
  | .Label => pjoin (pjoin basePath d.label) "labels"

/-- The destination-resolution result: target directory, final target
path, and whether collision disambiguation happened. -/
structure DestinationPlan where
  targetDir : String
  targetPath : String
  wasDisambiguated : Bool
deriving DecidableEq

/-- The collision-handling stage of `process_file`
(organizer.py lines 122–130): build `dest_folder/filename`; if the
existence predicate holds there, insert `_dup_{now}` between base name
and extension.  Single pass: the disambiguated path is not re-checked. -/
def resolve (d : FileDescriptor) (filename basePath : String)
    (existsFn : String → Bool) (now : Nat) : DestinationPlan :=
  let folder := dest_folder basePath d
  let dest_path := pjoin folder filename
  if existsFn dest_path then
    let be := splitext filename
    let new_filename := be.1 ++ "_dup_" ++ toString now ++ be.2
    ⟨folder, pjoin folder new_filename, true⟩
  else ⟨folder, dest_path, false⟩

/-- A filesystem: a list of (path, content) entries. -/
structure FS where
  files : List (String × Nat)
deriving DecidableEq

/-- `os.path.exists`. -/
def FS.existsPath (fs : FS) (p : String) : Bool :=
  fs.files.any (fun e => decide (e.1 = p))

/-- Content stored at a path, if any. -/
def FS.lookup (fs : FS) (p : String) : Option Nat :=
  (fs.files.find? (fun e => decide (e.1 = p))).map (fun e => e.2)

/-- Drop every entry at a path. -/
def FS.removePath (fs : FS) (p : String) : FS :=
  ⟨fs.files.filter (fun e => decide (e.1 ≠ p))⟩

/-- `shutil.move src dst`: when the source exists, its content
reappears at `dst` (replacing anything there) and disappears from
`src`; when the source is missing the filesystem is unchanged (the
caller models the raised error separately). -/
def FS.move (fs : FS) (src dst : String) : FS :=
  match fs.lookup src with
  | none => fs
  | some c => ⟨(dst, c) :: ((fs.removePath src).removePath dst).files⟩

/-- The observable outcome of one `process_file` run: one status line
per outcome, as printed by organizer.py. -/
inductive Outcome
  | invalidName
  | unknownPlatform (platform : String)
  | unknownExtension (extension : String)
  | moved (descriptor : FileDescriptor) (destPath : String) (wasDisambiguated : Bool)
  | errorCaught (filename msg : String)
deriving DecidableEq

/-- `DatasetFileHandler.process_file` (organizer.py lines 90–140) on
the filesystem model.  `mkdirsFail dir` and `moveFail src dst` are the
failure oracles for `os.makedirs` and `shutil.move`: `some msg` means
the call raises, and the surrounding `try/except` turns any raise into
an `errorCaught` status line carrying the filename. -/
def process_file (fs : FS)
    (mkdirsFail : String → Option String)
    (moveFail : String → String → Option String)
    (basePath filepath filename : String) (now : Nat) : Outcome × FS :=
  match classify filename with
  | .error .MalformedName => (.invalidName, fs)
  | .error .UnknownLabel =>
      (.unknownPlatform (lowerStr ((pysplit '_' filename).headD "")), fs)
  | .error .UnsupportedExtension =>
      (.unknownExtension (lowerStr (splitext filename).2), fs)
  | .ok d =>
    let folder := dest_folder basePath d
    match mkdirsFail folder with
    | some msg => (.errorCaught filename msg, fs)
    | none =>
      let plan := resolve d filename basePath fs.existsPath now
      match moveFail filepath plan.targetPath with
      | some msg => (.errorCaught filename msg, fs)
      | none =>
        if fs.existsPath filepath then
          (.moved d plan.targetPath plan.wasDisambiguated,
           fs.move filepath plan.targetPath)
        else (.errorCaught filename "source file not found", fs)

/-- Failure oracle for a run where `os.makedirs` never raises. -/
def noMkdirErr : String → Option String := fun _ => none

/-- Failure oracle for a run where `shutil.move` never raises. -/
def noMoveErr : String → String → Option String := fun _ _ => none

/-- A filesystem creation event as delivered by watchdog. -/
structure Event where
  is_directory : Bool
  src_path : String
deriving DecidableEq

/-- `os.path.basename` on forward-slash paths. -/
def basename (p : String) : String := (pysplit '/' p).getLastD ""

/-- What the watcher reports for one event. -/
inductive WatchOutcome
  | ignoredDirectory
  | vanished
  | processed (o : Outcome)
deriving DecidableEq

/-- `DatasetFileHandler.on_created` (organizer.py lines 60–80):
directory events are ignored; after the settle delay the source path is
re-checked (`fs` is the filesystem state at that moment) and a vanished
source is discarded silently; otherwise `process_file` runs. -/
def on_created (fs : FS)
    (mkdirsFail : String → Option String)
    (moveFail : String → String → Option String)
    (basePath : String) (now : Nat) (event : Event) : WatchOutcome × FS :=
  if event.is_directory then (.ignoredDirectory, fs)
  else
    let filepath := event.src_path
    let filename := basename filepath
    if fs.existsPath filepath then
      let r := process_file fs mkdirsFail moveFail basePath filepath filename now
      (.processed r.1, r.2)
    else (.vanished, fs)

/-- The watch loop: handle a list of events in order, each with the
timestamp at which it is processed, threading the filesystem state. -/
def processEvents (mkdirsFail : String → Option String)
    (moveFail : String → String → Option String)
    (basePath : String) : FS → List (Event × Nat) → List WatchOutcome × FS
  | fs, [] => ([], fs)
  | fs, (e, now) :: rest =>
    let r := on_created fs mkdirsFail moveFail basePath now e
    let rr := processEvents mkdirsFail moveFail basePath r.2 rest
    (r.1 :: rr.1, rr.2)

/-! ## Lemmas about the string primitives -/

lemma splitCharNE_append_len (d : Char) (xs ys : List Char) :
    (splitCharNE d (xs ++ ys)).2.length
      = (splitCharNE d xs).2.length + (splitCharNE d ys).2.length := by
  induction xs with
  | nil => simp [splitCharNE]
  | cons c cs ih =>
    by_cases h : c = d
    · simp [splitCharNE, h, ih]
      omega
    · simp [splitCharNE, h, ih]

lemma splitCharNE_append_fst (d : Char) (xs ys : List Char)
    (h : (splitCharNE d xs).2 ≠ []) :
    (splitCharNE d (xs ++ ys)).1 = (splitCharNE d xs).1 := by
  induction xs with
  | nil => simp [splitCharNE] at h
  | cons c cs ih =>
    by_cases hc : c = d
    · simp [splitCharNE, hc]
    · simp only [splitCharNE, List.cons_append, if_neg hc] at h ⊢
      exact congrArg (c :: ·) (ih h)

lemma splitCharNE_no_delim (d : Char) (xs : List Char) (h : d ∉ xs) :
    splitCharNE d xs = (xs, []) := by
  induction xs with
  | nil => rfl
  | cons c cs ih =>
    have hc : c ≠ d := fun he => h (he ▸ List.mem_cons_self c cs)
    have hcs : d ∉ cs := fun hm => h (List.mem_cons_of_mem c hm)
    simp [splitCharNE, if_neg hc, ih hcs]

lemma splitextCore_eq_append (cs : List Char) (r : List Char × List Char)
    (h : splitextCore cs = some r) : r.1 ++ r.2 = cs := by
  induction cs generalizing r with
  | nil => simp [splitextCore] at h
  | cons c cs ih =>
    simp only [splitextCore] at h
    cases hr : splitextCore cs with
    | some r2 =>
      rw [hr] at h
      cases h
      simpa using congrArg (c :: ·) (ih r2 hr)
    | none =>
      rw [hr] at h
      by_cases hc : c = '.'
      · rw [if_pos hc] at h; cases h; rfl
      · rw [if_neg hc] at h; cases h

lemma splitextCore_none_of_no_dot (cs : List Char) (h : '.' ∉ cs) :
    splitextCore cs = none := by
  induction cs with
  | nil => rfl
  | cons c cs ih =>
    have hc : c ≠ '.' := fun he => h (he ▸ List.mem_cons_self c cs)
    have hcs : '.' ∉ cs := fun hm => h (List.mem_cons_of_mem c hm)
    simp [splitextCore, ih hcs, if_neg hc]

lemma splitextCore_no_dot_of_none (cs : List Char) (h : splitextCore cs = none) :
    '.' ∉ cs := by
  induction cs with
  | nil => simp
  | cons c cs ih =>
    simp only [splitextCore] at h
    cases hr : splitextCore cs with
    | some r2 => rw [hr] at h; cases h
    | none =>
      rw [hr] at h
      by_cases hc : c = '.'
      · rw [if_pos hc] at h; cases h
      · intro hm
        rcases List.mem_cons.mp hm with he | hm2
        · exact hc he.symm
        · exact ih hr hm2

lemma splitextCore_ext_shape (cs : List Char) (r : List Char × List Char)
    (h : splitextCore cs = some r) :
    ∃ rest, r.2 = '.' :: rest ∧ '.' ∉ rest := by
  induction cs generalizing r with
  | nil => simp [splitextCore] at h
  | cons c cs ih =>
    simp only [splitextCore] at h
    cases hr : splitextCore cs with
    | some r2 =>
      rw [hr] at h
      cases h
      exact ih r2 hr
    | none =>
      rw [hr] at h
      by_cases hc : c = '.'
      · rw [if_pos hc] at h
        cases h
        exact ⟨cs, by rw [hc], splitextCore_no_dot_of_none cs hr⟩
      · rw [if_neg hc] at h; cases h

lemma splitextCore_dotfree_suffix (pre rest : List Char) (h : '.' ∉ rest) :
    splitextCore (pre ++ '.' :: rest) = some (pre, '.' :: rest) := by
  induction pre with
  | nil =>
    simp [splitextCore, splitextCore_none_of_no_dot rest h]
  | cons c cs ih =>
    simp [splitextCore, ih]

lemma splitext_data_append (s : String) :
    (splitext s).1.data ++ (splitext s).2.data = s.data := by
  unfold splitext
  cases hr : splitextCore s.data with
  | none => simp
  | some r =>
    by_cases ha : r.1.all (fun c => c = '.')
    · simp [ha]
    · simp only [ha, Bool.false_eq_true, if_false]
      exact splitextCore_eq_append s.data r hr

lemma newName_ne (filename : String) (now : Nat) :
    (splitext filename).1 ++ "_dup_" ++ toString now ++ (splitext filename).2
      ≠ filename := by
  intro h
  have hlen := congrArg (fun s => s.data.length) h
  have hsp := congrArg List.length (splitext_data_append filename)
  simp only [String.data_append, List.length_append, List.length_cons,
    List.length_nil] at hlen hsp
  omega

lemma pjoin_right_inj (a : String) {b c : String} (h : pjoin a b = pjoin a c) :
    b = c := by
  have hd := congrArg String.data h
  simp only [pjoin, String.data_append] at hd
  exact String.ext (List.append_cancel_left hd)

/-! ## Lemmas about the filesystem model -/

lemma FS.existsPath_iff (fs : FS) (p : String) :
    fs.existsPath p = true ↔ ∃ c, (p, c) ∈ fs.files := by
  simp only [FS.existsPath, List.any_eq_true, decide_eq_true_eq]
  constructor
  · rintro ⟨⟨q, c⟩, hm, he⟩
    exact ⟨c, by rw [← he]; exact hm⟩
  · rintro ⟨c, hm⟩
    exact ⟨(p, c), hm, rfl⟩

lemma FS.lookup_exists (fs : FS) (p : String) (h : fs.existsPath p = true) :
    ∃ c, fs.lookup p = some c := by
  unfold FS.lookup
  cases hf : fs.files.find? (fun e => decide (e.1 = p)) with
  | none =>
    rw [List.find?_eq_none] at hf
    rw [FS.existsPath_iff] at h
    obtain ⟨c, hm⟩ := h
    exact absurd (by simp) (hf (p, c) hm)
  | some e => exact ⟨e.2, rfl⟩

lemma FS.existsPath_move_dst (fs : FS) (src dst : String)
    (h : fs.existsPath src = true) :
    (fs.move src dst).existsPath dst = true := by
  obtain ⟨c, hc⟩ := fs.lookup_exists src h
  simp [FS.move, hc, FS.existsPath]

lemma FS.existsPath_move_other (fs : FS) (src dst q : String)
    (hq : fs.existsPath q = true) (h1 : q ≠ src) (h2 : q ≠ dst) :
    (fs.move src dst).existsPath q = true := by
  rw [FS.existsPath_iff] at hq
  obtain ⟨c, hm⟩ := hq
  unfold FS.move
  cases hl : fs.lookup src with
  | none => rw [FS.existsPath_iff]; exact ⟨c, hm⟩
  | some c2 =>
    rw [FS.existsPath_iff]
    refine ⟨c, List.mem_cons_of_mem _ ?_⟩
    simp only [FS.removePath, List.mem_filter, decide_eq_true_eq]
    exact ⟨⟨hm, h1⟩, h2⟩

/-! ## Lemmas about classification -/

lemma pysplit_length (d : Char) (s : String) :
    (pysplit d s).length = (splitCharNE d s.data).2.length + 1 := by
  simp [pysplit]

lemma pysplit_headD (d : Char) (s : String) :
    (pysplit d s).headD "" = (⟨(splitCharNE d s.data).1⟩ : String) := rfl

lemma classify_ok_inv (filename : String) (d : FileDescriptor)
    (h : classify filename = .ok d) :
    ¬ (pysplit '_' filename).length < 3 ∧
    PLATFORMS.contains (lowerStr ((pysplit '_' filename).headD "")) = true ∧
    d.label = lowerStr ((pysplit '_' filename).headD "") ∧
    ((lowerStr (splitext filename).2 = IMAGE_EXT ∧ d.kind = .Image) ∨
     (lowerStr (splitext filename).2 = LABEL_EXT ∧ d.kind = .Label)) := by
  unfold classify at h
  by_cases h3 : (pysplit '_' filename).length < 3
  · rw [if_pos h3] at h; cases h
  · rw [if_neg h3] at h
    by_cases hp : PLATFORMS.contains (lowerStr ((pysplit '_' filename).headD "")) = true
    · rw [if_pos hp] at h
      by_cases hi : lowerStr (splitext filename).2 = IMAGE_EXT
      · rw [if_pos hi] at h
        cases h
        exact ⟨h3, hp, rfl, Or.inl ⟨hi, rfl⟩⟩
      · rw [if_neg hi] at h
        by_cases hl : lowerStr (splitext filename).2 = LABEL_EXT
        · rw [if_pos hl] at h
          cases h
          exact ⟨h3, hp, rfl, Or.inr ⟨hl, rfl⟩⟩
        · rw [if_neg hl] at h; cases h
    · rw [if_neg hp] at h; cases h

lemma classify_eq_ok_image (filename : String)
    (h3 : ¬ (pysplit '_' filename).length < 3)
    (hp : PLATFORMS.contains (lowerStr ((pysplit '_' filename).headD "")) = true)
    (hi : lowerStr (splitext filename).2 = IMAGE_EXT) :
    classify filename
      = .ok ⟨lowerStr ((pysplit '_' filename).headD ""), .Image⟩ := by
  unfold classify
  rw [if_neg h3, if_pos hp, if_pos hi]

lemma classify_eq_ok_label (filename : String)
    (h3 : ¬ (pysplit '_' filename).length < 3)
    (hp : PLATFORMS.contains (lowerStr ((pysplit '_' filename).headD "")) = true)
    (hl : lowerStr (splitext filename).2 = LABEL_EXT) :
    classify filename
      = .ok ⟨lowerStr ((pysplit '_' filename).headD ""), .Label⟩ := by
  unfold classify
  have hi : ¬ lowerStr (splitext filename).2 = IMAGE_EXT := by
    rw [hl]; decide
  rw [if_neg h3, if_pos hp, if_neg hi, if_pos hl]

lemma classify_eq_err_ext (filename : String)
    (h3 : ¬ (pysplit '_' filename).length < 3)
    (hp : PLATFORMS.contains (lowerStr ((pysplit '_' filename).headD "")) = true)
    (hi : lowerStr (splitext filename).2 ≠ IMAGE_EXT)
    (hl : lowerStr (splitext filename).2 ≠ LABEL_EXT) :
    classify filename = .error .UnsupportedExtension := by
  unfold classify
  rw [if_neg h3, if_pos hp, if_neg hi, if_neg hl]

lemma lowerStr_data (s : String) :
    (lowerStr s).data = s.data.map Char.toLower := rfl

lemma no_underscore_of_lower (e target : String)
    (h : lowerStr e = target) (ht : '_' ∉ target.data) : '_' ∉ e.data := by
  intro hm
  apply ht
  have h1 : Char.toLower '_' ∈ e.data.map Char.toLower :=
    List.mem_map_of_mem _ hm
  have h2 : (lowerStr e).data = target.data := congrArg String.data h
  rw [lowerStr_data] at h2
  rw [h2] at h1
  have h3 : Char.toLower '_' = '_' := rfl
  rwa [h3] at h1

lemma splitext_eq_of_core (s : String) (r : List Char × List Char)
    (hr : splitextCore s.data = some r)
    (hall : ¬ r.1.all (fun c => c = '.') = true) :
    splitext s = ((⟨r.1⟩ : String), (⟨r.2⟩ : String)) := by
  unfold splitext
  split
  next r2 hr2 =>
    rw [hr] at hr2
    cases hr2
    rw [if_neg hall]
  next hr2 => rw [hr2] at hr; cases hr

lemma splitext_snd_shape (s : String) (h : (splitext s).2 ≠ "") :
    ∃ rest, (splitext s).2.data = '.' :: rest ∧ '.' ∉ rest := by
  cases hr : splitextCore s.data with
  | none =>
    rw [show splitext s = (s, "") from by simp [splitext, hr]] at h
    exact absurd rfl h
  | some r =>
    by_cases ha : r.1.all (fun c => c = '.') = true
    · rw [show splitext s = (s, "") from by simp [splitext, hr, ha]] at h
      exact absurd rfl h
    · obtain ⟨rest, hre, hnd⟩ := splitextCore_ext_shape s.data r hr
      rw [splitext_eq_of_core s r hr ha]
      exact ⟨rest, hre, hnd⟩

lemma resolve_targetDir (d : FileDescriptor) (filename basePath : String)
    (existsFn : String → Bool) (now : Nat) :
    (resolve d filename basePath existsFn now).targetDir
      = dest_folder basePath d := by
  simp only [resolve]
  split <;> rfl

/-! ## Behaviour of the resolver and of a successful placement -/

lemma resolve_collision_eq (d : FileDescriptor) (filename basePath : String)
    (existsFn : String → Bool) (now : Nat)
    (h : existsFn (pjoin (dest_folder basePath d) filename) = true) :
    resolve d filename basePath existsFn now
      = ⟨dest_folder basePath d,
         pjoin (dest_folder basePath d)
           ((splitext filename).1 ++ "_dup_" ++ toString now
             ++ (splitext filename).2), true⟩ := by
  simp only [resolve]
  rw [if_pos h]

lemma resolve_no_collision (d : FileDescriptor) (filename basePath : String)
    (existsFn : String → Bool) (now : Nat)
    (h : existsFn (pjoin (dest_folder basePath d) filename) = false) :
    resolve d filename basePath existsFn now
      = ⟨dest_folder basePath d, pjoin (dest_folder basePath d) filename,
         false⟩ := by
  simp only [resolve]
  rw [if_neg (by rw [h]; exact Bool.false_ne_true)]

lemma process_file_ok (fs : FS)
    (basePath filepath filename : String) (now : Nat) (d : FileDescriptor)
    (hc : classify filename = .ok d) (hsrc : fs.existsPath filepath = true) :
    process_file fs noMkdirErr noMoveErr basePath filepath filename now
      = (.moved d (resolve d filename basePath fs.existsPath now).targetPath
           (resolve d filename basePath fs.existsPath now).wasDisambiguated,
         fs.move filepath (resolve d filename basePath fs.existsPath now).targetPath) := by
  simp only [process_file, hc, noMkdirErr, noMoveErr]
  rw [if_pos hsrc]

/-! ## Specification claims -/

/-- C2: when the existence predicate is true at the initial candidate
path, `resolve` returns the fully determined plan whose path inserts the
`_dup_` marker and the Unix timestamp between base name and extension,
differs from the candidate, and is flagged `wasDisambiguated = true`;
the result is the same for every existence predicate that is true at the
candidate (in particular for ones also true at the disambiguated path),
so the disambiguation is a single pass with no re-check. -/
theorem resolve_collision_disambiguates
    (d : FileDescriptor) (filename basePath : String)
    (existsFn : String → Bool) (now : Nat)
    (h : existsFn (pjoin (dest_folder basePath d) filename) = true) :
    resolve d filename basePath existsFn now
      = ⟨dest_folder basePath d,
         pjoin (dest_folder basePath d)
           ((splitext filename).1 ++ "_dup_" ++ toString now
             ++ (splitext filename).2), true⟩
    ∧ pjoin (dest_folder basePath d)
        ((splitext filename).1 ++ "_dup_" ++ toString now
          ++ (splitext filename).2)
      ≠ pjoin (dest_folder basePath d) filename := by
  refine ⟨resolve_collision_eq d filename basePath existsFn now h, ?_⟩
  intro he
  exact newName_ne filename now (pjoin_right_inj _ he)

/-- C2 witness: a concrete collision at `b/twitter/images/twitter_1_2.jpg`
is resolved to `..._dup_7.jpg` with the flag set. -/
theorem resolve_collision_disambiguates_witness :
    (fun p => decide (p = "b/twitter/images/twitter_1_2.jpg"))
        (pjoin (dest_folder "b" ⟨"twitter", .Image⟩) "twitter_1_2.jpg") = true
    ∧ resolve ⟨"twitter", .Image⟩ "twitter_1_2.jpg" "b"
        (fun p => decide (p = "b/twitter/images/twitter_1_2.jpg")) 7
      = ⟨"b/twitter/images", "b/twitter/images/twitter_1_2_dup_7.jpg", true⟩ :=
  ⟨by decide,
   (resolve_collision_disambiguates ⟨"twitter", .Image⟩ "twitter_1_2.jpg" "b"
     (fun p => decide (p = "b/twitter/images/twitter_1_2.jpg")) 7 (by decide)).1⟩

/-- C3: any filename whose underscore split yields fewer than 3 segments
is classified as `MalformedName`, regardless of its label or extension. -/
theorem classify_short_name_malformed (filename : String)
    (h : (pysplit '_' filename).length < 3) :
    classify filename = .error .MalformedName := by
  unfold classify
  rw [if_pos h]

/-- C3 witness: `ab.jpg` splits into one segment and is rejected. -/
theorem classify_short_name_malformed_witness :
    (pysplit '_' "ab.jpg").length < 3
    ∧ classify "ab.jpg" = .error .MalformedName :=
  ⟨by decide, classify_short_name_malformed "ab.jpg" (by decide)⟩

/-- C4: a structurally valid filename whose lower-cased first segment is
not in `PLATFORMS` is classified as `UnknownLabel`, and `process_file`
performs no move: it returns the unknown-platform status line and leaves
the filesystem exactly as it was (so the source file stays in place). -/
theorem unknown_label_rejected_no_move
    (fs : FS) (mkdirsFail : String → Option String)
    (moveFail : String → String → Option String)
    (basePath filepath filename : String) (now : Nat)
    (h3 : ¬ (pysplit '_' filename).length < 3)
    (hp : PLATFORMS.contains (lowerStr ((pysplit '_' filename).headD ""))
      = false) :
    classify filename = .error .UnknownLabel
    ∧ process_file fs mkdirsFail moveFail basePath filepath filename now
        = (.unknownPlatform (lowerStr ((pysplit '_' filename).headD "")), fs) := by
  have hc : classify filename = .error .UnknownLabel := by
    unfold classify
    rw [if_neg h3, if_neg (by rw [hp]; exact Bool.false_ne_true)]
  exact ⟨hc, by simp only [process_file, hc]⟩

/-- C4 witness: `TIKTOK_123_1.jpg` is rejected as an unknown platform and
the staging file is untouched. -/
theorem unknown_label_rejected_no_move_witness :
    classify "TIKTOK_123_1.jpg" = .error .UnknownLabel
    ∧ process_file ⟨[("stage/TIKTOK_123_1.jpg", 3)]⟩ noMkdirErr noMoveErr
        "base" "stage/TIKTOK_123_1.jpg" "TIKTOK_123_1.jpg" 0
      = (.unknownPlatform "tiktok", ⟨[("stage/TIKTOK_123_1.jpg", 3)]⟩) :=
  unknown_label_rejected_no_move ⟨[("stage/TIKTOK_123_1.jpg", 3)]⟩
    noMkdirErr noMoveErr "base" "stage/TIKTOK_123_1.jpg" "TIKTOK_123_1.jpg" 0
    (by decide) (by decide)

/-- C5: for a structurally valid filename with a recognized label, the
lower-cased extension decides the outcome: `.jpg` yields kind `Image`,
`.txt` yields kind `Label`, and any other extension is rejected as
`UnsupportedExtension`. -/
theorem classify_extension_dispatch (filename : String)
    (h3 : ¬ (pysplit '_' filename).length < 3)
    (hp : PLATFORMS.contains (lowerStr ((pysplit '_' filename).headD ""))
      = true) :
    (lowerStr (splitext filename).2 = IMAGE_EXT →
      classify filename
        = .ok ⟨lowerStr ((pysplit '_' filename).headD ""), .Image⟩)
    ∧ (lowerStr (splitext filename).2 = LABEL_EXT →
      classify filename
        = .ok ⟨lowerStr ((pysplit '_' filename).headD ""), .Label⟩)
    ∧ (lowerStr (splitext filename).2 ≠ IMAGE_EXT →
      lowerStr (splitext filename).2 ≠ LABEL_EXT →
      classify filename = .error .UnsupportedExtension) :=
  ⟨classify_eq_ok_image filename h3 hp,
   classify_eq_ok_label filename h3 hp,
   classify_eq_err_ext filename h3 hp⟩

/-- C5 witness: `twitter_1_2.JPG` (extension matched case-insensitively)
classifies to kind `Image` with label `twitter`. -/
theorem classify_extension_dispatch_witness :
    lowerStr (splitext "twitter_1_2.JPG").2 = IMAGE_EXT
    ∧ classify "twitter_1_2.JPG" = .ok ⟨"twitter", .Image⟩ :=
  ⟨by decide,
   (classify_extension_dispatch "twitter_1_2.JPG" (by decide) (by decide)).1
     (by decide)⟩

/-- C10: classification is stable under disambiguation: a filename that
classifies to a descriptor still classifies to the same descriptor after
`_dup_{timestamp}` is inserted between its base name and extension, so a
disambiguated file re-entering the pipeline resolves to the same target
directory. -/
theorem classify_stable_under_disambiguation
    (filename : String) (d : FileDescriptor) (now : Nat)
    (h : classify filename = .ok d) :
    classify ((splitext filename).1 ++ "_dup_" ++ toString now
        ++ (splitext filename).2) = .ok d
    ∧ ∀ basePath existsFn now2,
        (resolve d ((splitext filename).1 ++ "_dup_" ++ toString now
            ++ (splitext filename).2) basePath existsFn now2).targetDir
          = (resolve d filename basePath existsFn now2).targetDir := by
  obtain ⟨h3, hp, hlab, hkind⟩ := classify_ok_inv filename d h
  have hextne : (splitext filename).2 ≠ "" := by
    rcases hkind with ⟨hi, _⟩ | ⟨hl, _⟩
    · intro he; rw [he] at hi; exact absurd hi (by decide)
    · intro he; rw [he] at hl; exact absurd hl (by decide)
  obtain ⟨rest, hre, hnd⟩ := splitext_snd_shape filename hextne
  have hnu : '_' ∉ (splitext filename).2.data := by
    rcases hkind with ⟨hi, _⟩ | ⟨hl, _⟩
    · exact no_underscore_of_lower _ _ hi (by decide)
    · exact no_underscore_of_lower _ _ hl (by decide)
  have hsplit : (splitext filename).1.data ++ (splitext filename).2.data
      = filename.data := splitext_data_append filename
  have hcount : 2 ≤ (splitCharNE '_' filename.data).2.length := by
    rw [pysplit_length] at h3; omega
  have hext0 : splitCharNE '_' (splitext filename).2.data
      = ((splitext filename).2.data, []) := splitCharNE_no_delim _ _ hnu
  have hbase_count : 2 ≤ (splitCharNE '_' (splitext filename).1.data).2.length := by
    have hlen := splitCharNE_append_len '_' (splitext filename).1.data
      (splitext filename).2.data
    rw [hsplit, hext0] at hlen
    simp at hlen
    omega
  have hbne : (splitCharNE '_' (splitext filename).1.data).2 ≠ [] := by
    intro hnil; rw [hnil] at hbase_count; simp at hbase_count
  have hfst_f : (splitCharNE '_' filename.data).1
      = (splitCharNE '_' (splitext filename).1.data).1 := by
    rw [← hsplit]
    exact splitCharNE_append_fst '_' _ _ hbne
  have hnndata : ((splitext filename).1 ++ "_dup_" ++ toString now
      ++ (splitext filename).2).data
      = (splitext filename).1.data
        ++ (("_dup_" : String).data ++ ((toString now).data
          ++ (splitext filename).2.data)) := by
    simp [String.data_append]
  have hfst_nn : (splitCharNE '_' ((splitext filename).1 ++ "_dup_"
      ++ toString now ++ (splitext filename).2).data).1
      = (splitCharNE '_' (splitext filename).1.data).1 := by
    rw [hnndata]
    exact splitCharNE_append_fst '_' _ _ hbne
  have hcount_nn : 2 ≤ (splitCharNE '_' ((splitext filename).1 ++ "_dup_"
      ++ toString now ++ (splitext filename).2).data).2.length := by
    rw [hnndata, splitCharNE_append_len]
    omega
  have h3' : ¬ (pysplit '_' ((splitext filename).1 ++ "_dup_"
      ++ toString now ++ (splitext filename).2)).length < 3 := by
    rw [pysplit_length]; omega
  have hfst_eq : (pysplit '_' ((splitext filename).1 ++ "_dup_"
      ++ toString now ++ (splitext filename).2)).headD ""
      = (pysplit '_' filename).headD "" := by
    rw [pysplit_headD, pysplit_headD, hfst_nn, hfst_f]
  have hp' : PLATFORMS.contains (lowerStr ((pysplit '_' ((splitext filename).1
      ++ "_dup_" ++ toString now ++ (splitext filename).2)).headD "")) = true := by
    rw [hfst_eq]; exact hp
  have hpre : splitextCore ((splitext filename).1 ++ "_dup_" ++ toString now
      ++ (splitext filename).2).data
      = some ((splitext filename).1.data ++ (("_dup_" : String).data
          ++ (toString now).data), '.' :: rest) := by
    have hshape : ((splitext filename).1 ++ "_dup_" ++ toString now
        ++ (splitext filename).2).data
        = ((splitext filename).1.data ++ (("_dup_" : String).data
            ++ (toString now).data)) ++ '.' :: rest := by
      rw [hnndata, hre]
      simp [List.append_assoc]
    rw [hshape]
    exact splitextCore_dotfree_suffix _ rest hnd
  have hall : ¬ ((splitext filename).1.data ++ (("_dup_" : String).data
      ++ (toString now).data)).all (fun c => c = '.') = true := by
    intro hall
    rw [List.all_eq_true] at hall
    have hmem : '_' ∈ (splitext filename).1.data ++ (("_dup_" : String).data
        ++ (toString now).data) := by
      apply List.mem_append_right
      apply List.mem_append_left
      decide
    exact absurd (hall '_' hmem) (by decide)
  have hsx_nn : splitext ((splitext filename).1 ++ "_dup_" ++ toString now
      ++ (splitext filename).2)
      = ((⟨(splitext filename).1.data ++ (("_dup_" : String).data
          ++ (toString now).data)⟩ : String), (⟨'.' :: rest⟩ : String)) :=
    splitext_eq_of_core _ _ hpre hall
  have hext_nn : (splitext ((splitext filename).1 ++ "_dup_" ++ toString now
      ++ (splitext filename).2)).2 = (splitext filename).2 := by
    rw [hsx_nn]
    exact String.ext hre.symm
  constructor
  · rcases hkind with ⟨hi, hk⟩ | ⟨hl, hk⟩
    · have hok := classify_eq_ok_image _ h3' hp' (by rw [hext_nn]; exact hi)
      rw [hok, hfst_eq, ← hlab, ← hk]
    · have hok := classify_eq_ok_label _ h3' hp' (by rw [hext_nn]; exact hl)
      rw [hok, hfst_eq, ← hlab, ← hk]
  · intro basePath existsFn now2
    rw [resolve_targetDir, resolve_targetDir]

/-- C10 witness: `twitter_1_2.jpg` and its disambiguation
`twitter_1_2_dup_42.jpg` classify to the same descriptor. -/
theorem classify_stable_under_disambiguation_witness :
    classify "twitter_1_2.jpg" = .ok ⟨"twitter", .Image⟩
    ∧ classify ((splitext "twitter_1_2.jpg").1 ++ "_dup_" ++ toString 42
        ++ (splitext "twitter_1_2.jpg").2) = .ok ⟨"twitter", .Image⟩ :=
  ⟨rfl,
   (classify_stable_under_disambiguation "twitter_1_2.jpg"
     ⟨"twitter", .Image⟩ 42 rfl).1⟩

/-- C6: when the candidate path is free, a successfully classified file
is moved to `basePath/{label}/images` (kind `Image`) or
`basePath/{label}/labels` (kind `Label`) keeping its original filename,
with no disambiguation. -/
theorem no_collision_target_path
    (fs : FS) (basePath filepath filename : String) (now : Nat)
    (d : FileDescriptor)
    (hc : classify filename = .ok d)
    (hnc : fs.existsPath (pjoin (dest_folder basePath d) filename) = false)
    (hsrc : fs.existsPath filepath = true) :
    process_file fs noMkdirErr noMoveErr basePath filepath filename now
      = (.moved d (pjoin (dest_folder basePath d) filename) false,
         fs.move filepath (pjoin (dest_folder basePath d) filename))
    ∧ (d.kind = .Image →
        dest_folder basePath d = pjoin (pjoin basePath d.label) "images")
    ∧ (d.kind = .Label →
        dest_folder basePath d = pjoin (pjoin basePath d.label) "labels") := by
  refine ⟨?_, ?_, ?_⟩
  · rw [process_file_ok fs basePath filepath filename now d hc hsrc,
        resolve_no_collision d filename basePath fs.existsPath now hnc]
  · intro hk; unfold dest_folder; rw [hk]
  · intro hk; unfold dest_folder; rw [hk]

/-- C6 witness: end-to-end scenario A — `twitter_1730912345678_0347.jpg`
lands at `D:/dataset/twitter/images/twitter_1730912345678_0347.jpg`. -/
theorem no_collision_target_path_witness :
    classify "twitter_1730912345678_0347.jpg" = .ok ⟨"twitter", .Image⟩
    ∧ process_file ⟨[("stage/twitter_1730912345678_0347.jpg", 7)]⟩ noMkdirErr
        noMoveErr "D:/dataset" "stage/twitter_1730912345678_0347.jpg"
        "twitter_1730912345678_0347.jpg" 0
      = (.moved ⟨"twitter", .Image⟩
           "D:/dataset/twitter/images/twitter_1730912345678_0347.jpg" false,
         ⟨[("D:/dataset/twitter/images/twitter_1730912345678_0347.jpg", 7)]⟩) :=
  ⟨rfl,
   (no_collision_target_path ⟨[("stage/twitter_1730912345678_0347.jpg", 7)]⟩
     "D:/dataset" "stage/twitter_1730912345678_0347.jpg"
     "twitter_1730912345678_0347.jpg" 0 ⟨"twitter", .Image⟩ rfl rfl rfl).1⟩

/-- C1: a successful placement never overwrites, deletes or truncates a
pre-existing file at the naive destination: when the destination path
already exists, the move goes to the disambiguated path, and afterwards
both the pre-existing file and the newly placed file exist. -/
theorem place_never_overwrites
    (fs : FS) (basePath filepath filename : String) (now : Nat)
    (d : FileDescriptor)
    (hc : classify filename = .ok d)
    (hpre : fs.existsPath (pjoin (dest_folder basePath d) filename) = true)
    (hsrc : fs.existsPath filepath = true)
    (hne : filepath ≠ pjoin (dest_folder basePath d) filename) :
    (process_file fs noMkdirErr noMoveErr basePath filepath filename now).1
      = .moved d (pjoin (dest_folder basePath d)
          ((splitext filename).1 ++ "_dup_" ++ toString now
            ++ (splitext filename).2)) true
    ∧ (process_file fs noMkdirErr noMoveErr
          basePath filepath filename now).2.existsPath
        (pjoin (dest_folder basePath d) filename) = true
    ∧ (process_file fs noMkdirErr noMoveErr
          basePath filepath filename now).2.existsPath
        (pjoin (dest_folder basePath d)
          ((splitext filename).1 ++ "_dup_" ++ toString now
            ++ (splitext filename).2)) = true := by
  have hres := resolve_collision_eq d filename basePath fs.existsPath now hpre
  have hpf := process_file_ok fs basePath filepath filename now d hc hsrc
  have hneq : pjoin (dest_folder basePath d)
      ((splitext filename).1 ++ "_dup_" ++ toString now
        ++ (splitext filename).2)
      ≠ pjoin (dest_folder basePath d) filename := fun he =>
    newName_ne filename now (pjoin_right_inj _ he)
  rw [hpf, hres]
  refine ⟨rfl, ?_, ?_⟩
  · exact FS.existsPath_move_other fs filepath _ _ hpre
      (Ne.symm hne) (Ne.symm hneq)
  · exact FS.existsPath_move_dst fs filepath _ hsrc

/-- C1 witness: end-to-end scenario C — a second `reddit_1_1.txt` arrives
while the destination already holds one; the new file is placed at the
disambiguated path and the first file is untouched. -/
theorem place_never_overwrites_witness :
    (process_file
        ⟨[("stage/reddit_1_1.txt", 1), ("base/reddit/labels/reddit_1_1.txt", 2)]⟩
        noMkdirErr noMoveErr "base" "stage/reddit_1_1.txt" "reddit_1_1.txt" 5).1
      = .moved ⟨"reddit", .Label⟩ "base/reddit/labels/reddit_1_1_dup_5.txt" true
    ∧ (process_file
        ⟨[("stage/reddit_1_1.txt", 1), ("base/reddit/labels/reddit_1_1.txt", 2)]⟩
        noMkdirErr noMoveErr "base" "stage/reddit_1_1.txt"
        "reddit_1_1.txt" 5).2.existsPath "base/reddit/labels/reddit_1_1.txt"
      = true
    ∧ (process_file
        ⟨[("stage/reddit_1_1.txt", 1), ("base/reddit/labels/reddit_1_1.txt", 2)]⟩
        noMkdirErr noMoveErr "base" "stage/reddit_1_1.txt"
        "reddit_1_1.txt" 5).2.existsPath "base/reddit/labels/reddit_1_1_dup_5.txt"
      = true :=
  place_never_overwrites
    ⟨[("stage/reddit_1_1.txt", 1), ("base/reddit/labels/reddit_1_1.txt", 2)]⟩
    "base" "stage/reddit_1_1.txt" "reddit_1_1.txt" 5 ⟨"reddit", .Label⟩
    rfl rfl rfl (by decide)

/-- C7: every file for which the move is actually executed carries a
descriptor whose label is in `PLATFORMS` and whose kind matches one of
the two supported extensions — for any behaviour of the directory and
move oracles, so no file can bypass the allow-list or extension check
and still reach the move step. -/
theorem move_only_validated
    (fs : FS) (mkdirsFail : String → Option String)
    (moveFail : String → String → Option String)
    (basePath filepath filename : String) (now : Nat)
    (d : FileDescriptor) (p : String) (w : Bool) (fs2 : FS)
    (h : process_file fs mkdirsFail moveFail basePath filepath filename now
        = (.moved d p w, fs2)) :
    PLATFORMS.contains d.label = true
    ∧ ((lowerStr (splitext filename).2 = IMAGE_EXT ∧ d.kind = .Image)
      ∨ (lowerStr (splitext filename).2 = LABEL_EXT ∧ d.kind = .Label)) := by
  cases hc : classify filename with
  | error e => cases e <;> simp [process_file, hc] at h
  | ok d2 =>
    obtain ⟨h3, hp, hlab, hkind⟩ := classify_ok_inv filename d2 hc
    have hd : d = d2 := by
      simp only [process_file, hc] at h
      cases hmk : mkdirsFail (dest_folder basePath d2) with
      | some msg => simp [hmk] at h
      | none =>
        simp only [hmk] at h
        cases hmv : moveFail filepath
            (resolve d2 filename basePath fs.existsPath now).targetPath with
        | some msg => simp [hmv] at h
        | none =>
          simp only [hmv] at h
          by_cases hex : fs.existsPath filepath = true
          · rw [if_pos hex] at h
            have h1 := congrArg Prod.fst h
            simp only [Prod.fst] at h1
            cases h1
            rfl
          · rw [if_neg hex] at h
            simp at h
    rw [hd]
    rw [hlab]
    exact ⟨hp, hkind⟩

/-- C7 witness: the one concrete run below executes a move, and its
descriptor satisfies the allow-list and extension invariant. -/
theorem move_only_validated_witness :
    PLATFORMS.contains "twitter" = true
    ∧ ((lowerStr (splitext "twitter_1730912345678_0347.jpg").2 = IMAGE_EXT
        ∧ Kind.Image = Kind.Image)
      ∨ (lowerStr (splitext "twitter_1730912345678_0347.jpg").2 = LABEL_EXT
        ∧ Kind.Image = Kind.Label)) :=
  move_only_validated ⟨[("stage/twitter_1730912345678_0347.jpg", 7)]⟩
    noMkdirErr noMoveErr "D:/dataset" "stage/twitter_1730912345678_0347.jpg"
    "twitter_1730912345678_0347.jpg" 0 ⟨"twitter", .Image⟩
    "D:/dataset/twitter/images/twitter_1730912345678_0347.jpg" false
    ⟨[("D:/dataset/twitter/images/twitter_1730912345678_0347.jpg", 7)]⟩ rfl

/-- C8: directory events are ignored outright, and an event whose source
path no longer exists after the settle delay is discarded silently — the
outcome carries no error text, the filesystem is untouched, no
classification or move is attempted, and the watch loop goes on to
process the remaining events exactly as if the event had not occurred. -/
theorem benign_events_discarded
    (fs : FS) (mkdirsFail : String → Option String)
    (moveFail : String → String → Option String)
    (basePath : String) (now : Nat) (ev : Event) :
    (ev.is_directory = true →
      on_created fs mkdirsFail moveFail basePath now ev
        = (.ignoredDirectory, fs))
    ∧ (ev.is_directory = false → fs.existsPath ev.src_path = false →
      on_created fs mkdirsFail moveFail basePath now ev = (.vanished, fs)
      ∧ ∀ rest, processEvents mkdirsFail moveFail basePath fs ((ev, now) :: rest)
          = (WatchOutcome.vanished
              :: (processEvents mkdirsFail moveFail basePath fs rest).1,
             (processEvents mkdirsFail moveFail basePath fs rest).2)) := by
  constructor
  · intro hd
    simp only [on_created]
    rw [if_pos hd]
  · intro hd hex
    have hoc : on_created fs mkdirsFail moveFail basePath now ev
        = (.vanished, fs) := by
      simp only [on_created]
      rw [if_neg (by rw [hd]; exact Bool.false_ne_true),
          if_neg (by rw [hex]; exact Bool.false_ne_true)]
    refine ⟨hoc, fun rest => ?_⟩
    simp only [processEvents, hoc]

/-- C8 witness: a directory event and a vanished-source event are both
discarded with the filesystem unchanged. -/
theorem benign_events_discarded_witness :
    on_created ⟨[]⟩ noMkdirErr noMoveErr "base" 0 ⟨true, "stage/subdir"⟩
      = (.ignoredDirectory, ⟨[]⟩)
    ∧ on_created ⟨[]⟩ noMkdirErr noMoveErr "base" 0 ⟨false, "stage/gone.jpg"⟩
      = (.vanished, ⟨[]⟩) :=
  ⟨(benign_events_discarded ⟨[]⟩ noMkdirErr noMoveErr "base" 0
      ⟨true, "stage/subdir"⟩).1 rfl,
   ((benign_events_discarded ⟨[]⟩ noMkdirErr noMoveErr "base" 0
      ⟨false, "stage/gone.jpg"⟩).2 rfl rfl).1⟩

/-- C9: every failure inside the pipeline is caught and turned into a
status line carrying the filename and the reason, leaving the filesystem
unchanged — a raising `os.makedirs`, a raising `shutil.move`, and a
source that vanished before the move are each mapped to `errorCaught` —
and the watch loop always produces exactly one outcome per event, so one
failing file never prevents processing of subsequent files. -/
theorem pipeline_failures_caught :
    (∀ (fs : FS) (mkdirsFail : String → Option String)
        (moveFail : String → String → Option String)
        (basePath filepath filename : String) (now : Nat)
        (d : FileDescriptor) (msg : String),
      classify filename = .ok d →
      mkdirsFail (dest_folder basePath d) = some msg →
      process_file fs mkdirsFail moveFail basePath filepath filename now
        = (.errorCaught filename msg, fs))
    ∧ (∀ (fs : FS) (mkdirsFail : String → Option String)
        (moveFail : String → String → Option String)
        (basePath filepath filename : String) (now : Nat)
        (d : FileDescriptor) (msg : String),
      classify filename = .ok d →
      mkdirsFail (dest_folder basePath d) = none →
      moveFail filepath
          (resolve d filename basePath fs.existsPath now).targetPath
        = some msg →
      process_file fs mkdirsFail moveFail basePath filepath filename now
        = (.errorCaught filename msg, fs))
    ∧ (∀ (fs : FS) (mkdirsFail : String → Option String)
        (moveFail : String → String → Option String)
        (basePath filepath filename : String) (now : Nat)
        (d : FileDescriptor),
      classify filename = .ok d →
      mkdirsFail (dest_folder basePath d) = none →
      moveFail filepath
          (resolve d filename basePath fs.existsPath now).targetPath
        = none →
      fs.existsPath filepath = false →
      process_file fs mkdirsFail moveFail basePath filepath filename now
        = (.errorCaught filename "source file not found", fs))
    ∧ (∀ (mkdirsFail : String → Option String)
        (moveFail : String → String → Option String)
        (basePath : String) (fs : FS) (evs : List (Event × Nat)),
      (processEvents mkdirsFail moveFail basePath fs evs).1.length
        = evs.length) := by
  refine ⟨?_, ?_, ?_, ?_⟩
  · intro fs mkdirsFail moveFail basePath filepath filename now d msg hc hmk
    simp only [process_file, hc, hmk]
  · intro fs mkdirsFail moveFail basePath filepath filename now d msg hc hmk hmv
    simp only [process_file, hc, hmk, hmv]
  · intro fs mkdirsFail moveFail basePath filepath filename now d hc hmk hmv hex
    simp only [process_file, hc, hmk, hmv]
    rw [if_neg (by rw [hex]; exact Bool.false_ne_true)]
  · intro mkdirsFail moveFail basePath fs evs
    induction evs generalizing fs with
    | nil => rfl
    | cons e rest ih =>
      obtain ⟨ev, now⟩ := e
      simp only [processEvents, List.length_cons]
      rw [ih]

/-- C9 witness: a raising `os.makedirs` on a classifiable file is caught
as a status line with the filename, and a two-event batch yields two
outcomes even though the first event fails. -/
theorem pipeline_failures_caught_witness :
    process_file ⟨[("stage/twitter_1_2.jpg", 0)]⟩ (fun _ => some "disk full")
        noMoveErr "base" "stage/twitter_1_2.jpg" "twitter_1_2.jpg" 0
      = (.errorCaught "twitter_1_2.jpg" "disk full", ⟨[("stage/twitter_1_2.jpg", 0)]⟩)
    ∧ (processEvents (fun _ => some "disk full") noMoveErr "base"
        ⟨[("stage/twitter_1_2.jpg", 0)]⟩
        [(⟨false, "stage/twitter_1_2.jpg"⟩, 0), (⟨true, "stage/dir"⟩, 1)]).1.length
      = 2 :=
  ⟨pipeline_failures_caught.1 ⟨[("stage/twitter_1_2.jpg", 0)]⟩
      (fun _ => some "disk full") noMoveErr "base" "stage/twitter_1_2.jpg"
      "twitter_1_2.jpg" 0 ⟨"twitter", .Image⟩ "disk full" rfl rfl,
   pipeline_failures_caught.2.2.2 (fun _ => some "disk full") noMoveErr "base"
      ⟨[("stage/twitter_1_2.jpg", 0)]⟩
      [(⟨false, "stage/twitter_1_2.jpg"⟩, 0), (⟨true, "stage/dir"⟩, 1)]⟩
